import Mathlib

/-!
Verification of the J1939 attack-dataset labeling pipeline
(`labeling/parser.py`, `labeling/rule_engine.py`).

The Python code is shallowly embedded: dataframes become lists of records,
machine integers become `Nat`, floating timestamps and context values become
`ℚ`, dictionary `get` with defaults becomes `Option.getD`, and the
exception-driven parsing becomes `Option`.
-/

namespace J1939

/-! ## Frame decoder (`labeling/parser.py`, `extract_j1939_fields`) -/

structure J1939Fields where
  priority : Nat
  pf : Nat
  ps : Nat
  sa : Nat
  da : Option Nat
  pgn : Nat
  pdu_type : String
  deriving DecidableEq

/-- Embedding of `extract_j1939_fields(can_id)` from `labeling/parser.py`. -/
def extract_j1939_fields (can_id : Nat) : J1939Fields :=
  let priority := (can_id >>> 26) &&& 0x7
  let pf := (can_id >>> 16) &&& 0xFF
  let ps := (can_id >>> 8) &&& 0xFF
  let sa := can_id &&& 0xFF
  let pgn_raw := (can_id >>> 8) &&& 0xFFFF
  if pf ≥ 240 then
    { priority := priority, pf := pf, ps := ps, sa := sa,
      da := none, pgn := pgn_raw, pdu_type := "PDU2" }
  else
    { priority := priority, pf := pf, ps := ps, sa := sa,
      da := some ps, pgn := pgn_raw &&& 0xFF00, pdu_type := "PDU1" }

/-! Bit-level helper lemmas for the identifier decomposition. -/

theorem pgn_raw_decomp (x : Nat) :
    (x >>> 8) &&& 0xFFFF = (((x >>> 16) &&& 0xFF) <<< 8) ||| ((x >>> 8) &&& 0xFF) := by
  have h16 : (0xFFFF : Nat) = 2 ^ 16 - 1 := by norm_num
  have h8 : (0xFF : Nat) = 2 ^ 8 - 1 := by norm_num
  rw [h16, h8]
  apply Nat.eq_of_testBit_eq
  intro i
  simp only [Nat.testBit_and, Nat.testBit_or, Nat.testBit_shiftLeft,
    Nat.testBit_shiftRight, Nat.testBit_two_pow_sub_one]
  rcases Nat.lt_or_ge i 8 with hi | hi
  · have d1 : decide (i < 16) = true := by simp; omega
    have d2 : decide (8 ≤ i) = false := by simp; omega
    have d3 : decide (i < 8) = true := by simp; omega
    simp [d1, d2, d3]
  · rcases Nat.lt_or_ge i 16 with hi2 | hi2
    · have d1 : decide (i < 16) = true := by simp; omega
      have d2 : decide (8 ≤ i) = true := by simp; omega
      have d3 : decide (i < 8) = false := by simp; omega
      have d4 : decide (i - 8 < 8) = true := by simp; omega
      have harith : 16 + (i - 8) = 8 + i := by omega
      simp [d1, d2, d3, d4, harith]
    · have d1 : decide (i < 16) = false := by simp; omega
      have d3 : decide (i < 8) = false := by simp; omega
      have d4 : decide (i - 8 < 8) = false := by simp; omega
      simp [d1, d3, d4]

theorem pgn_raw_mask_high (x : Nat) :
    ((x >>> 8) &&& 0xFFFF) &&& 0xFF00 = ((x >>> 16) &&& 0xFF) <<< 8 := by
  have h16 : (0xFFFF : Nat) = 2 ^ 16 - 1 := by norm_num
  have h8 : (0xFF : Nat) = 2 ^ 8 - 1 := by norm_num
  have hhi : (0xFF00 : Nat) = (2 ^ 8 - 1) <<< 8 := by decide
  rw [h16, h8, hhi]
  apply Nat.eq_of_testBit_eq
  intro i
  simp only [Nat.testBit_and, Nat.testBit_or, Nat.testBit_shiftLeft,
    Nat.testBit_shiftRight, Nat.testBit_two_pow_sub_one]
  rcases Nat.lt_or_ge i 8 with hi | hi
  · have d2 : decide (8 ≤ i) = false := by simp; omega
    simp [d2]
  · rcases Nat.lt_or_ge i 16 with hi2 | hi2
    · have d1 : decide (i < 16) = true := by simp; omega
      have d2 : decide (8 ≤ i) = true := by simp; omega
      have d4 : decide (i - 8 < 8) = true := by simp; omega
      have harith : 16 + (i - 8) = 8 + i := by omega
      simp [d1, d2, d4, harith]
    · have d1 : decide (i < 16) = false := by simp; omega
      have d4 : decide (i - 8 < 8) = false := by simp; omega
      simp [d1, d4]

theorem shiftLeft8_mod_256 (a : Nat) : (a <<< 8) % 256 = 0 := by
  rw [Nat.shiftLeft_eq]
  norm_num [Nat.mul_mod_left]

theorem extract_broadcast_eq (can_id : Nat)
    (h : 240 ≤ (can_id >>> 16) &&& 0xFF) :
    extract_j1939_fields can_id =
      { priority := (can_id >>> 26) &&& 0x7, pf := (can_id >>> 16) &&& 0xFF,
        ps := (can_id >>> 8) &&& 0xFF, sa := can_id &&& 0xFF,
        da := none, pgn := (can_id >>> 8) &&& 0xFFFF, pdu_type := "PDU2" } := by
  simp only [extract_j1939_fields, ge_iff_le]
  rw [if_pos h]

theorem extract_destination_eq (can_id : Nat)
    (h : ¬ 240 ≤ (can_id >>> 16) &&& 0xFF) :
    extract_j1939_fields can_id =
      { priority := (can_id >>> 26) &&& 0x7, pf := (can_id >>> 16) &&& 0xFF,
        ps := (can_id >>> 8) &&& 0xFF, sa := can_id &&& 0xFF,
        da := some ((can_id >>> 8) &&& 0xFF),
        pgn := ((can_id >>> 8) &&& 0xFFFF) &&& 0xFF00, pdu_type := "PDU1" } := by
  simp only [extract_j1939_fields, ge_iff_le]
  rw [if_neg h]

/-- Claim C1: For every 29-bit identifier, field decoding is bit-exact:
`priority = (id >> 26) & 0x7`, `pf = (id >> 16) & 0xFF`, `ps = (id >> 8) & 0xFF`,
`source_address = id & 0xFF`; when `pf ≥ 240` the record is broadcast with
`group_number = (pf << 8) | ps` and no destination address; when `pf < 240` the
record is destination-specific with `group_number = pf << 8` (low byte zero)
and `destination_address = ps`. -/
theorem C1_extract_fields_bit_exact (can_id : Nat) (h29 : can_id < 2 ^ 29) :
    (extract_j1939_fields can_id).priority = (can_id >>> 26) &&& 0x7 ∧
    (extract_j1939_fields can_id).pf = (can_id >>> 16) &&& 0xFF ∧
    (extract_j1939_fields can_id).ps = (can_id >>> 8) &&& 0xFF ∧
    (extract_j1939_fields can_id).sa = can_id &&& 0xFF ∧
    ((extract_j1939_fields can_id).pf ≥ 240 →
      (extract_j1939_fields can_id).da = none ∧
      (extract_j1939_fields can_id).pgn =
        ((extract_j1939_fields can_id).pf <<< 8) |||
          (extract_j1939_fields can_id).ps ∧
      (extract_j1939_fields can_id).pdu_type = "PDU2") ∧
    ((extract_j1939_fields can_id).pf < 240 →
      (extract_j1939_fields can_id).da = some (extract_j1939_fields can_id).ps ∧
      (extract_j1939_fields can_id).pgn = (extract_j1939_fields can_id).pf <<< 8 ∧
      (extract_j1939_fields can_id).pgn % 256 = 0 ∧
      (extract_j1939_fields can_id).pdu_type = "PDU1") := by
  by_cases hpf : 240 ≤ (can_id >>> 16) &&& 0xFF
  · rw [extract_broadcast_eq can_id hpf]
    exact ⟨rfl, rfl, rfl, rfl, fun _ => ⟨rfl, pgn_raw_decomp can_id, rfl⟩,
      fun hlt => absurd hpf (not_le.mpr (by simpa using hlt))⟩
  · rw [extract_destination_eq can_id hpf]
    exact ⟨rfl, rfl, rfl, rfl, fun hge => absurd hge hpf,
      fun _ => ⟨rfl, pgn_raw_mask_high can_id, by
        rw [pgn_raw_mask_high can_id]; exact shiftLeft8_mod_256 _, rfl⟩⟩

/-- Witness for C1 at the concrete broadcast identifier `0x18FEF100`. -/
theorem C1_extract_fields_bit_exact_witness :
    (0x18FEF100 : Nat) < 2 ^ 29 ∧
    ((extract_j1939_fields 0x18FEF100).pgn = 65265 ∧
     (extract_j1939_fields 0x18FEF100).da = none) := by
  refine ⟨by norm_num, ?_, ?_⟩
  · have h := C1_extract_fields_bit_exact 0x18FEF100 (by norm_num)
    rcases h with ⟨_, hpf, hps, _, hbr, _⟩
    have := hbr (by rw [hpf]; decide)
    rw [this.2.1, hpf, hps]
    decide
  · have h := C1_extract_fields_bit_exact 0x18FEF100 (by norm_num)
    rcases h with ⟨_, hpf, _, _, hbr, _⟩
    exact (hbr (by rw [hpf]; decide)).1

/-! ## Record store and rule configuration (`labeling/rule_engine.py`) -/

/-- One row of the parsed dataframe: the columns produced by `parse_candump`
plus the provenance columns ensured by `apply_rules`. -/
structure Record where
  timestamp : ℚ
  iface : String
  can_id : Nat
  dlc : Nat
  data : String
  priority : Nat
  pdu_format : Nat
  pdu_specific : Nat
  pdu_type : String
  pgn : Nat
  pgn_label : Option String
  destination : Option Nat
  source : Nat
  label : String
  rule_name : String
  rule_type : String
  semantics : String
  rule_severity : String
  rule_layer : String
  rule_description : String
  context_pgn : String
  context_value : Option ℚ
  deriving DecidableEq

/-- Message-of-interest predicate: the keys `_moi_filter` recognizes.
`none` models an absent key. -/
structure Moi where
  pgn : Option Nat
  sa : Option Nat
  da : Option Nat
  priority_min : Option Nat
  priority_max : Option Nat
  deriving DecidableEq

def Moi.isEmpty (m : Moi) : Bool :=
  m.pgn.isNone && m.sa.isNone && m.da.isNone &&
    m.priority_min.isNone && m.priority_max.isNone

/-- The `context` block of a context rule; `none` models an absent key. -/
structure CtxSpec where
  pgn : Option Nat
  sa : Option Nat
  offset : Option Nat
  length : Option Nat
  scale : Option ℚ
  comparator : Option String
  threshold : Option ℚ
  deriving DecidableEq

def CtxSpec.isEmpty (c : CtxSpec) : Bool :=
  c.pgn.isNone && c.sa.isNone && c.offset.isNone && c.length.isNone &&
    c.scale.isNone && c.comparator.isNone && c.threshold.isNone

/-- `rule["metadata"]`; a missing key or missing sub-key collapses to `""`,
exactly as `(rule.get("metadata") or {}).get(k, "")` does. -/
structure RuleMeta where
  severity : String
  layer : String
  description : String
  deriving DecidableEq

/-- One YAML rule object. -/
structure Rule where
  name : String
  rtype : Option String
  label : Option String
  semantics : String
  metadata : RuleMeta
  moi : Moi
  context : CtxSpec
  interval_ms : Option ℚ
  threshold : Option Nat
  deriving DecidableEq

/-! ## Character/string primitives (structural embeddings of Python `str`
methods, so that concrete instances reduce in the kernel) -/

/-- `s.strip(chars)`: remove any leading/trailing characters from `cs`. -/
def pyStrip (cs : List Char) (s : String) : String :=
  String.mk (((s.toList.dropWhile (fun c => cs.contains c)).reverse.dropWhile
    (fun c => cs.contains c)).reverse)

/-- `s.strip()` with no arguments: trim ASCII whitespace. -/
def pyTrim (s : String) : String :=
  pyStrip [' ', '\t', '\n', '\r'] s

/-- ASCII `str.lower()` on one character. -/
def charLower (c : Char) : Char :=
  if 'A' ≤ c ∧ c ≤ 'Z' then Char.ofNat (c.toNat + 32) else c

/-- `s.lower()`. -/
def strLower (s : String) : String :=
  String.mk (s.toList.map charLower)

/-- ASCII `str.upper()` on one character. -/
def charUpper (c : Char) : Char :=
  if 'a' ≤ c ∧ c ≤ 'z' then Char.ofNat (c.toNat - 32) else c

/-- `s.upper()`. -/
def strUpper (s : String) : String :=
  String.mk (s.toList.map charUpper)

/-- `line.split()`: split on whitespace runs, discarding empty tokens. -/
def splitWsChars : List Char → List Char → List String
  | [], acc => if acc.isEmpty then [] else [String.mk acc.reverse]
  | c :: rest, acc =>
      if c = ' ' ∨ c = '\t' then
        if acc.isEmpty then splitWsChars rest []
        else String.mk acc.reverse :: splitWsChars rest []
      else splitWsChars rest (c :: acc)

def splitWs (s : String) : List String :=
  splitWsChars s.toList []

/-- `SEVERITY_ORDER.get(s, -1)` from `labeling/rule_engine.py`. -/
def SEVERITY_ORDER (s : String) : Int :=
  if s = "low" then 0 else if s = "medium" then 1 else if s = "high" then 2 else -1

/-- Embedding of `_annotate_row(df, idx, rule, context_value=...)` as a pure
transformation of the addressed row. -/
def _annotate_row (r : Record) (rule : Rule) (context_value : Option ℚ) : Record :=
  let label := rule.label.getD "anomalous"
  let semantics := pyTrim rule.semantics
  let severity := strLower rule.metadata.severity
  let layer := rule.metadata.layer
  let desc := rule.metadata.description
  let rtype := rule.rtype.getD ""
  let rname := rule.name
  let r1 := { r with rule_name :=
    if r.rule_name ≠ "" then r.rule_name ++ "|" ++ rname else rname }
  let curr_rank := SEVERITY_ORDER r1.rule_severity
  let new_rank := SEVERITY_ORDER severity
  let r2 :=
    if new_rank ≥ curr_rank then
      { r1 with
        label := label
        rule_type := rtype
        semantics := semantics
        rule_severity := severity
        rule_layer := layer
        rule_description := desc }
    else r1
  match context_value with
  | none => r2
  | some v =>
      let r3 := { r2 with context_value := some v }
      if rule.context.isEmpty then r3
      else { r3 with context_pgn :=
        match rule.context.pgn with
        | some p => toString p
        | none => "" }

/-- Embedding of `_moi_filter(df, moi)` over the index-carrying row list. -/
def _moi_filter (df : List (Nat × Record)) (moi : Moi) : List (Nat × Record) :=
  if moi.isEmpty then df
  else
    let f := df
    let f := match moi.pgn with
      | some p => f.filter (fun r => r.2.pgn == p)
      | none => f
    let f := match moi.sa with
      | some s => f.filter (fun r => r.2.source == s)
      | none => f
    let f := match moi.da with
      | some d => f.filter (fun r => r.2.destination == some d)
      | none => f
    let f := match moi.priority_min with
      | some p => f.filter (fun r => decide (p ≤ r.2.priority))
      | none => f
    let f := match moi.priority_max with
      | some p => f.filter (fun r => decide (r.2.priority ≤ p))
      | none => f
    f

/-- The conjunction of all set message-of-interest options, as one predicate. -/
def moiMatches (moi : Moi) (r : Record) : Bool :=
  (match moi.pgn with | some p => r.pgn == p | none => true) &&
  (match moi.sa with | some s => r.source == s | none => true) &&
  (match moi.da with | some d => r.destination == some d | none => true) &&
  (match moi.priority_min with | some p => decide (p ≤ r.priority) | none => true) &&
  (match moi.priority_max with | some p => decide (r.priority ≤ p) | none => true)

/-- Index-aware map over the record store; embeds row-wise `df.at` mutation. -/
def mapWithIndex (f : Nat → Record → Record) : Nat → List Record → List Record
  | _, [] => []
  | i, r :: rest => f i r :: mapWithIndex f (i + 1) rest

/-- Embedding of `apply_rule(df, rule)`: annotate every row matched by the
message-of-interest filter. -/
def apply_rule (df : List Record) (rule : Rule) : List Record :=
  let filt := _moi_filter df.enum rule.moi
  if filt.isEmpty then df
  else
    let indices := filt.map Prod.fst
    mapWithIndex (fun i r => if i ∈ indices then _annotate_row r rule none else r) 0 df

theorem mapWithIndex_get? (f : Nat → Record → Record) (l : List Record) :
    ∀ n k, (mapWithIndex f n l).get? k = (l.get? k).map (f (n + k)) := by
  induction l with
  | nil => intro n k; simp [mapWithIndex]
  | cons r rest ih =>
      intro n k
      cases k with
      | zero => simp [mapWithIndex]
      | succ k =>
          have harith : n + 1 + k = n + (k + 1) := by omega
          simp only [mapWithIndex, List.get?_cons_succ]
          rw [ih (n + 1) k, harith]

theorem mapWithIndex_id (f : Nat → Record → Record) (l : List Record)
    (h : ∀ i r, f i r = r) : ∀ n, mapWithIndex f n l = l := by
  induction l with
  | nil => intro n; simp [mapWithIndex]
  | cons r rest ih => intro n; simp [mapWithIndex, h, ih]

/-! ## Burst rule (`apply_irule`) -/

/-- The inner window scan of `apply_irule` over one identifier group, already
sorted by timestamp: `window` is the current window, `prevT` the timestamp of
the immediately preceding record (`delta = t - prevT` embeds `g["timestamp"].diff()`),
`marked` the accumulated `indices_to_label`. -/
def burstLoop (interval : ℚ) (threshold : Nat) :
    List (Nat × ℚ) → List Nat → ℚ → List Nat → List Nat
  | [], _, _, marked => marked
  | (i, t) :: rest, window, prevT, marked =>
      if t - prevT ≤ interval then
        let window2 := window ++ [i]
        let marked2 :=
          if window2.length ≥ threshold then marked.union window2 else marked
        burstLoop interval threshold rest window2 t marked2
      else
        burstLoop interval threshold rest [i] t marked

/-- Scan of one sorted identifier group: the first record seeds the window
(its `diff()` is NaN), the rest run through `burstLoop`. -/
def burstScan (interval : ℚ) (threshold : Nat) : List (Nat × ℚ) → List Nat
  | [] => []
  | (i, t) :: rest => burstLoop interval threshold rest [i] t []

/-- Stable insertion into a timestamp-ascending list: the new element goes
after any existing element with the same timestamp. -/
def insertByTs (p : Nat × Record) : List (Nat × Record) → List (Nat × Record)
  | [] => [p]
  | q :: rest =>
      if q.2.timestamp ≤ p.2.timestamp then q :: insertByTs p rest
      else p :: q :: rest

/-- `g.sort_values(by="timestamp")` on an identifier group: stable ascending
sort by timestamp. -/
def sortByTimestamp : List (Nat × Record) → List (Nat × Record)
  | [] => []
  | p :: rest => insertByTs p (sortByTimestamp rest)

/-- Embedding of `apply_irule(df, rule)`. -/
def apply_irule (df : List Record) (rule : Rule) : List Record :=
  let interval_sec := (rule.interval_ms.getD 1) / 1000
  let threshold := rule.threshold.getD 5
  let filtered := _moi_filter df.enum rule.moi
  if filtered.isEmpty then df
  else
    let ids := (filtered.map (fun p => p.2.can_id)).dedup
    let marked := ids.foldr (fun c acc =>
      let g := sortByTimestamp (filtered.filter (fun p => p.2.can_id == c))
      (burstScan interval_sec threshold
        (g.map (fun p => (p.1, p.2.timestamp)))).union acc) []
    mapWithIndex (fun i r => if i ∈ marked then _annotate_row r rule none else r) 0 df

/-! ## Context rule (`apply_crule`) -/

def hexDigit (c : Char) : Option Nat :=
  if '0' ≤ c ∧ c ≤ '9' then some (c.toNat - '0'.toNat)
  else if 'a' ≤ c ∧ c ≤ 'f' then some (c.toNat - 'a'.toNat + 10)
  else if 'A' ≤ c ∧ c ≤ 'F' then some (c.toNat - 'A'.toNat + 10)
  else none

def hexPairs : List Char → Option (List Nat)
  | [] => some []
  | c1 :: c2 :: rest => do
      let hi ← hexDigit c1
      let lo ← hexDigit c2
      let bs ← hexPairs rest
      pure ((hi * 16 + lo) :: bs)
  | [_] => none

/-- `bytes.fromhex(s)`: pairs of hex digits, failing on odd length or a
non-hex character. -/
def bytes_fromhex (s : String) : Option (List Nat) :=
  hexPairs s.toList

/-- `int.from_bytes(bs[::-1], byteorder="big")`: the slice is reversed, then
read most-significant-first. Total: an empty slice yields 0. -/
def int_from_bytes_rev (bs : List Nat) : Nat :=
  bs.reverse.foldl (fun acc b => acc * 256 + b) 0

/-- Dictionary insert keyed by timestamp (`ctx_values[row["timestamp"]] = val`):
a later record with the same timestamp overwrites. -/
def insertTs (m : List (ℚ × ℚ)) (t v : ℚ) : List (ℚ × ℚ) :=
  if m.any (fun p => decide (p.1 = t)) then
    m.map (fun p => if p.1 = t then (t, v) else p)
  else m ++ [(t, v)]

/-- The context-value extraction loop of `apply_crule`: for each candidate
record, decode the payload hex, slice `[offset : offset+length]`, reverse,
read big-endian, scale; rows whose hex decode raises are skipped. -/
def ctxValuesOf (ctx_df : List Record) (offset length : Nat) (scale : ℚ) :
    List (ℚ × ℚ) :=
  ctx_df.foldl (fun m r =>
    match bytes_fromhex r.data with
    | none => m
    | some b =>
        let raw := int_from_bytes_rev ((b.drop offset).take length)
        insertTs m r.timestamp (raw * scale)) []

/-- `max((t for t in ctx_times if t <= ts), default=None)` followed by the
dictionary lookup: the value at the latest timestamp at or before `ts`. -/
def latestCtx (m : List (ℚ × ℚ)) (ts : ℚ) : Option ℚ :=
  match m.filter (fun p => decide (p.1 ≤ ts)) with
  | [] => none
  | x :: xs => some ((xs.foldl (fun best p => if best.1 < p.1 then p else best) x).2)

/-- The five-way comparator disjunction of `apply_crule`; any other
comparator string evaluates to `false`. -/
def comparatorFires (comparator : String) (v threshold : ℚ) : Bool :=
  (comparator == ">" && decide (v > threshold)) ||
  (comparator == "<" && decide (v < threshold)) ||
  (comparator == "==" && decide (v = threshold)) ||
  (comparator == ">=" && decide (v ≥ threshold)) ||
  (comparator == "<=" && decide (v ≤ threshold))

/-- The context time-to-value series built by `apply_crule`: filter the store
by the context `pgn` (and `sa` when given), then extract scaled values. -/
def cruleCtxValues (df : List Record) (rule : Rule) : List (ℚ × ℚ) :=
  let ctx := rule.context
  let ctx_df0 := df.filter (fun r => r.pgn == ctx.pgn.getD 0)
  let ctx_df := match ctx.sa with
    | some s => ctx_df0.filter (fun r => r.source == s)
    | none => ctx_df0
  ctxValuesOf ctx_df (ctx.offset.getD 0) (ctx.length.getD 1) (ctx.scale.getD 1)

/-- Embedding of `apply_crule(df, rule)`. -/
def apply_crule (df : List Record) (rule : Rule) : List Record :=
  let moi := rule.moi
  let ctx := rule.context
  if moi.pgn.isNone || ctx.pgn.isNone then df
  else
    let comparator := pyTrim (ctx.comparator.getD ">")
    let threshold := ctx.threshold.getD 0
    let ctx_values := cruleCtxValues df rule
    if ctx_values.isEmpty then df
    else
      let moiIdx := (_moi_filter df.enum moi).map Prod.fst
      mapWithIndex (fun i r =>
        if i ∈ moiIdx then
          match latestCtx ctx_values r.timestamp with
          | none => r
          | some v =>
              if comparatorFires comparator v threshold then
                _annotate_row r rule (some v)
              else r
        else r) 0 df

/-! ## Rule dispatch (`apply_rules`) -/

def dispatch (df : List Record) (rule : Rule) : List Record :=
  if rule.rtype == some "rule" then apply_rule df rule
  else if rule.rtype == some "irule" then apply_irule df rule
  else if rule.rtype == some "crule" then apply_crule df rule
  else df

def apply_rules (df : List Record) (rules : List Rule) : List Record :=
  rules.foldl dispatch df

/-! ## Candump line parser (`labeling/parser.py`, `parse_candump`) -/

def natDigitsVal (cs : List Char) : Nat :=
  cs.foldl (fun a c => a * 10 + (c.toNat - 48)) 0

/-- `int(s)` restricted to a run of decimal digits. -/
def decDigits (cs : List Char) : Option Nat :=
  if cs.isEmpty then none
  else if cs.all Char.isDigit then some (natDigitsVal cs)
  else none

/-- `float(s)` for the decimal timestamps a candump log carries. -/
def parseDecimal (s : String) : Option ℚ :=
  let cs := s.toList
  let signed : ℚ × List Char :=
    match cs with
    | '-' :: rest => (-1, rest)
    | '+' :: rest => (1, rest)
    | _ => (1, cs)
  let sign := signed.1
  let body := signed.2
  let intCs := body.takeWhile Char.isDigit
  let rest := body.dropWhile Char.isDigit
  match rest with
  | [] => if intCs.isEmpty then none else some (sign * natDigitsVal intCs)
  | '.' :: fracCs =>
      if fracCs.all Char.isDigit && !(intCs.isEmpty && fracCs.isEmpty) then
        some (sign * ((natDigitsVal intCs : ℚ) +
          (natDigitsVal fracCs : ℚ) / 10 ^ fracCs.length))
      else none
  | _ => none

/-- `int(s, 16)` restricted to a run of hex digits. -/
def parseHexNat (s : String) : Option Nat :=
  let cs := s.toList
  if cs.isEmpty then none
  else cs.foldl (fun acc c => do
    let a ← acc
    let d ← hexDigit c
    pure (a * 16 + d)) (some 0)

/-- `s.zfill(width)`: left-pad with zeros up to `width`; longer strings pass
through unchanged. -/
def zfill (width : Nat) (s : String) : String :=
  if s.length ≥ width then s
  else String.mk (List.replicate (width - s.length) '0') ++ s

/-- `''.join(l)`. -/
def strJoin (l : List String) : String :=
  l.foldl (fun a b => a ++ b) ""

/-- Embedding of the per-line body of `parse_candump`: any exception in the
`try` block becomes `none` and the line is skipped. -/
def parse_line (pgn_labels : List (Nat × String)) (raw : String) : Option Record :=
  let parts := splitWs raw
  match parts.get? 0 with
  | none => none
  | some ts_tok =>
  match parseDecimal (pyStrip ['(', ')'] ts_tok) with
  | none => none
  | some timestamp =>
  match parts.get? 1 with
  | none => none
  | some iface =>
  match parts.get? 2 with
  | none => none
  | some id_tok =>
  match parseHexNat id_tok with
  | none => none
  | some can_id =>
  match parts.get? 3 with
  | none => none
  | some dlc_tok =>
  match decDigits (pyStrip ['[', ']'] dlc_tok).toList with
  | none => none
  | some dlc =>
  let data_tokens := (parts.drop 4).take dlc
  let data := strUpper (strJoin (data_tokens.map (zfill 2)))
  let dec := extract_j1939_fields can_id
  let pgn_label := (pgn_labels.find? (fun p => p.1 == dec.pgn)).map Prod.snd
  some {
    timestamp := timestamp
    iface := iface
    can_id := can_id
    dlc := dlc
    data := data
    priority := dec.priority
    pdu_format := dec.pf
    pdu_specific := dec.ps
    pdu_type := dec.pdu_type
    pgn := dec.pgn
    pgn_label := pgn_label
    destination := dec.da
    source := dec.sa
    label := "normal"
    rule_name := ""
    rule_type := ""
    semantics := ""
    rule_severity := ""
    rule_layer := ""
    rule_description := ""
    context_pgn := ""
    context_value := none }

/-- Embedding of `parse_candump`: blank lines and lines whose `try` block
raises are skipped. -/
def parse_candump (lines : List String) (pgn_labels : List (Nat × String)) :
    List Record :=
  lines.filterMap (fun line =>
    let raw := pyTrim line
    if raw == "" then none else parse_line pgn_labels raw)

/-! ## Annotator lemmas -/

theorem annotate_main_fields (r : Record) (rule : Rule) (cv : Option ℚ) :
    ((_annotate_row r rule cv).label,
     (_annotate_row r rule cv).rule_type,
     (_annotate_row r rule cv).semantics,
     (_annotate_row r rule cv).rule_severity,
     (_annotate_row r rule cv).rule_layer,
     (_annotate_row r rule cv).rule_description) =
    if SEVERITY_ORDER (strLower rule.metadata.severity) ≥ SEVERITY_ORDER r.rule_severity
    then (rule.label.getD "anomalous", rule.rtype.getD "", pyTrim rule.semantics,
          strLower rule.metadata.severity, rule.metadata.layer,
          rule.metadata.description)
    else (r.label, r.rule_type, r.semantics, r.rule_severity, r.rule_layer,
          r.rule_description) := by
  cases cv <;> simp only [_annotate_row] <;> (repeat' split) <;> simp_all

theorem annotate_rule_name (r : Record) (rule : Rule) (cv : Option ℚ) :
    (_annotate_row r rule cv).rule_name =
      if r.rule_name ≠ "" then r.rule_name ++ "|" ++ rule.name else rule.name := by
  cases cv <;> simp only [_annotate_row] <;> (repeat' split) <;> simp_all

theorem annotate_preserves_filter_fields (r : Record) (rule : Rule) (cv : Option ℚ) :
    (_annotate_row r rule cv).pgn = r.pgn ∧
    (_annotate_row r rule cv).source = r.source ∧
    (_annotate_row r rule cv).destination = r.destination ∧
    (_annotate_row r rule cv).priority = r.priority ∧
    (_annotate_row r rule cv).timestamp = r.timestamp ∧
    (_annotate_row r rule cv).can_id = r.can_id ∧
    (_annotate_row r rule cv).data = r.data := by
  cases cv <;> simp only [_annotate_row] <;> (repeat' split) <;> simp_all

/-- Claim C2: The annotator overwrites label, rule type, semantics, severity,
layer, and description exactly when the firing rule's severity rank
(low=0, medium=1, high=2, otherwise -1) is ≥ the record's current severity
rank; hence for two rules of severities low and high firing on the same
record, the final label and severity equal the high rule's in both evaluation
orders, and on equal ranks the later-evaluated rule's values win. -/
theorem C2_annotator_severity_override (r : Record) (rule ra rb : Rule)
    (cv : Option ℚ)
    (hlo : strLower ra.metadata.severity = "low")
    (hhi : strLower rb.metadata.severity = "high") :
    ((SEVERITY_ORDER (strLower rule.metadata.severity) ≥
        SEVERITY_ORDER r.rule_severity →
      (_annotate_row r rule cv).label = rule.label.getD "anomalous" ∧
      (_annotate_row r rule cv).rule_type = rule.rtype.getD "" ∧
      (_annotate_row r rule cv).semantics = pyTrim rule.semantics ∧
      (_annotate_row r rule cv).rule_severity = strLower rule.metadata.severity ∧
      (_annotate_row r rule cv).rule_layer = rule.metadata.layer ∧
      (_annotate_row r rule cv).rule_description = rule.metadata.description) ∧
     (SEVERITY_ORDER (strLower rule.metadata.severity) <
        SEVERITY_ORDER r.rule_severity →
      (_annotate_row r rule cv).label = r.label ∧
      (_annotate_row r rule cv).rule_type = r.rule_type ∧
      (_annotate_row r rule cv).semantics = r.semantics ∧
      (_annotate_row r rule cv).rule_severity = r.rule_severity ∧
      (_annotate_row r rule cv).rule_layer = r.rule_layer ∧
      (_annotate_row r rule cv).rule_description = r.rule_description)) ∧
    ((_annotate_row (_annotate_row r ra none) rb none).label =
        rb.label.getD "anomalous" ∧
     (_annotate_row (_annotate_row r ra none) rb none).rule_severity = "high" ∧
     (_annotate_row (_annotate_row r rb none) ra none).label =
        rb.label.getD "anomalous" ∧
     (_annotate_row (_annotate_row r rb none) ra none).rule_severity = "high") ∧
    (∀ r1 r2 : Rule, ∀ cv1 cv2 : Option ℚ,
      SEVERITY_ORDER (strLower r1.metadata.severity) =
        SEVERITY_ORDER (strLower r2.metadata.severity) →
      SEVERITY_ORDER (strLower r2.metadata.severity) ≥
        SEVERITY_ORDER r.rule_severity →
      (_annotate_row (_annotate_row r r1 cv1) r2 cv2).label =
        r2.label.getD "anomalous" ∧
      (_annotate_row (_annotate_row r r1 cv1) r2 cv2).rule_severity =
        strLower r2.metadata.severity) := by
  have main := annotate_main_fields
  refine ⟨⟨?_, ?_⟩, ?_, ?_⟩
  · intro h
    have := main r rule cv
    rw [if_pos h] at this
    exact ⟨congrArg (·.1) this, congrArg (·.2.1) this, congrArg (·.2.2.1) this,
      congrArg (·.2.2.2.1) this, congrArg (·.2.2.2.2.1) this,
      congrArg (·.2.2.2.2.2) this⟩
  · intro h
    have := main r rule cv
    rw [if_neg (not_le.mpr h)] at this
    exact ⟨congrArg (·.1) this, congrArg (·.2.1) this, congrArg (·.2.2.1) this,
      congrArg (·.2.2.2.1) this, congrArg (·.2.2.2.2.1) this,
      congrArg (·.2.2.2.2.2) this⟩
  · -- low-then-high and high-then-low both end at the high rule's values.
    have h1 := main r ra none
    have h2 := main r rb none
    have hB2 : SEVERITY_ORDER (strLower rb.metadata.severity) ≥
        SEVERITY_ORDER r.rule_severity := by
      rw [hhi]; unfold SEVERITY_ORDER; repeat' split <;> simp_all <;> omega
    rw [if_pos hB2] at h2
    have hb_sev : (_annotate_row r rb none).rule_severity = "high" := by
      have := congrArg (·.2.2.2.1) h2; simpa [hhi] using this
    by_cases hA : SEVERITY_ORDER (strLower ra.metadata.severity) ≥
        SEVERITY_ORDER r.rule_severity
    · rw [if_pos hA] at h1
      have ha_sev : (_annotate_row r ra none).rule_severity = "low" := by
        have := congrArg (·.2.2.2.1) h1; simpa [hlo] using this
      have h3 := main (_annotate_row r ra none) rb none
      have hge : SEVERITY_ORDER (strLower rb.metadata.severity) ≥
          SEVERITY_ORDER (_annotate_row r ra none).rule_severity := by
        rw [hhi, ha_sev]; decide
      rw [if_pos hge] at h3
      have h4 := main (_annotate_row r rb none) ra none
      have hlt : ¬ (SEVERITY_ORDER (strLower ra.metadata.severity) ≥
          SEVERITY_ORDER (_annotate_row r rb none).rule_severity) := by
        rw [hlo, hb_sev]; decide
      rw [if_neg hlt] at h4
      refine ⟨?_, ?_, ?_, ?_⟩
      · exact congrArg (·.1) h3
      · have := congrArg (·.2.2.2.1) h3; simpa [hhi] using this
      · have := congrArg (·.1) h4
        simp only at this
        rw [this]
        exact congrArg (·.1) h2
      · have := congrArg (·.2.2.2.1) h4
        simp only at this
        rw [this]
        have := congrArg (·.2.2.2.1) h2; simpa [hhi] using this
    · rw [if_neg hA] at h1
      have ha_sev : (_annotate_row r ra none).rule_severity = r.rule_severity := by
        have := congrArg (·.2.2.2.1) h1; simpa using this
      have h3 := main (_annotate_row r ra none) rb none
      have hge : SEVERITY_ORDER (strLower rb.metadata.severity) ≥
          SEVERITY_ORDER (_annotate_row r ra none).rule_severity := by
        rw [ha_sev]; exact hB2
      rw [if_pos hge] at h3
      have h4 := main (_annotate_row r rb none) ra none
      have hlt : ¬ (SEVERITY_ORDER (strLower ra.metadata.severity) ≥
          SEVERITY_ORDER (_annotate_row r rb none).rule_severity) := by
        rw [hlo, hb_sev]; decide
      rw [if_neg hlt] at h4
      refine ⟨?_, ?_, ?_, ?_⟩
      · exact congrArg (·.1) h3
      · have := congrArg (·.2.2.2.1) h3; simpa [hhi] using this
      · have := congrArg (·.1) h4
        simp only at this
        rw [this]
        exact congrArg (·.1) h2
      · have := congrArg (·.2.2.2.1) h4
        simp only at this
        rw [this]
        have := congrArg (·.2.2.2.1) h2; simpa [hhi] using this
  · -- equal ranks: the later rule's values win.
    intro r1 r2 cv1 cv2 heq hge
    have h1 := main r r1 cv1
    rw [if_pos (heq ▸ hge)] at h1
    have hsev1 : (_annotate_row r r1 cv1).rule_severity =
        strLower r1.metadata.severity := by
      have := congrArg (·.2.2.2.1) h1; simpa using this
    have h2 := main (_annotate_row r r1 cv1) r2 cv2
    have hge2 : SEVERITY_ORDER (strLower r2.metadata.severity) ≥
        SEVERITY_ORDER (_annotate_row r r1 cv1).rule_severity := by
      rw [hsev1, ← heq]
    rw [if_pos hge2] at h2
    exact ⟨congrArg (·.1) h2, by
      have := congrArg (·.2.2.2.1) h2; simpa using this⟩

/-- Witness for C2 on a fresh record and two concrete rules of severities
low and high. -/
theorem C2_annotator_severity_override_witness :
    let mkRule := fun (nm lb sev : String) => ({
      name := nm
      rtype := some "rule"
      label := some lb
      semantics := "usage"
      metadata := { severity := sev, layer := "app", description := "d" }
      moi := { pgn := none, sa := none, da := none,
               priority_min := none, priority_max := none }
      context := { pgn := none, sa := none, offset := none, length := none,
                   scale := none, comparator := none, threshold := none }
      interval_ms := none
      threshold := none } : Rule)
    let r0 : Record := {
      timestamp := 0, iface := "can0", can_id := 0, dlc := 0, data := ""
      priority := 0, pdu_format := 0, pdu_specific := 0, pdu_type := "PDU1"
      pgn := 0, pgn_label := none, destination := none, source := 0
      label := "normal", rule_name := "", rule_type := "", semantics := ""
      rule_severity := "", rule_layer := "", rule_description := ""
      context_pgn := "", context_value := none }
    (_annotate_row (_annotate_row r0 (mkRule "a" "la" "low") none)
        (mkRule "b" "lb" "high") none).label = "lb" ∧
    (_annotate_row (_annotate_row r0 (mkRule "b" "lb" "high") none)
        (mkRule "a" "la" "low") none).label = "lb" := by
  intro mkRule r0
  have h := C2_annotator_severity_override r0 (mkRule "a" "la" "low")
    (mkRule "a" "la" "low") (mkRule "b" "lb" "high") none (by decide) (by decide)
  exact ⟨h.2.1.1, h.2.1.2.2.1⟩

/-! ## Message-of-interest filter lemmas -/

theorem moi_filter_eq_filter (moi : Moi) (df : List (Nat × Record)) :
    _moi_filter df moi = df.filter (fun p => moiMatches moi p.2) := by
  rcases moi with ⟨op, os, od, omin, omax⟩
  by_cases he : Moi.isEmpty ⟨op, os, od, omin, omax⟩ = true
  · have h := he
    simp only [Moi.isEmpty, Bool.and_eq_true, Option.isNone_iff_eq_none] at h
    obtain ⟨⟨⟨⟨h1, h2⟩, h3⟩, h4⟩, h5⟩ := h
    subst h1; subst h2; subst h3; subst h4; subst h5
    simp [_moi_filter, Moi.isEmpty, moiMatches, List.filter_true]
  · simp only [_moi_filter, if_neg he]
    cases op <;> cases os <;> cases od <;> cases omin <;> cases omax
    all_goals try exact absurd rfl he
    all_goals
      simp only [moiMatches, List.filter_filter]
      exact List.filter_congr (fun p _ => by
        simp [Bool.and_comm, Bool.and_left_comm, Bool.and_assoc])

/-- Claim C7: The message-of-interest filter returns exactly the records
satisfying the conjunction (AND) of all set options (`pgn` exact, `sa` exact,
`da` exact, `priority_min` and `priority_max` inclusive); unset options
impose no constraint, an empty predicate returns all rows unchanged, and
filtering never mutates or invents a row: every returned row is a row of the
store, unchanged. -/
theorem C7_moi_filter_conjunctive (moi : Moi) (df : List (Nat × Record)) :
    _moi_filter df moi = df.filter (fun p => moiMatches moi p.2) ∧
    (moi.pgn = none → moi.sa = none → moi.da = none → moi.priority_min = none →
      moi.priority_max = none → _moi_filter df moi = df) ∧
    (∀ p ∈ _moi_filter df moi, p ∈ df) := by
  refine ⟨moi_filter_eq_filter moi df, ?_, ?_⟩
  · intro h1 h2 h3 h4 h5
    rw [moi_filter_eq_filter]
    have : ∀ p : Nat × Record, moiMatches moi p.2 = true := by
      intro p; simp [moiMatches, h1, h2, h3, h4, h5]
    simp only [this]
    exact List.filter_true df
  · intro p hp
    rw [moi_filter_eq_filter] at hp
    exact (List.mem_filter.mp hp).1

/-- Witness for C7: the empty predicate on a one-row store returns the store. -/
theorem C7_moi_filter_conjunctive_witness :
    let emptyMoi : Moi := { pgn := none, sa := none, da := none,
                            priority_min := none, priority_max := none }
    let r0 : Record := {
      timestamp := 0, iface := "can0", can_id := 0, dlc := 0, data := ""
      priority := 3, pdu_format := 0, pdu_specific := 0, pdu_type := "PDU1"
      pgn := 0, pgn_label := none, destination := none, source := 0
      label := "normal", rule_name := "", rule_type := "", semantics := ""
      rule_severity := "", rule_layer := "", rule_description := ""
      context_pgn := "", context_value := none }
    _moi_filter [(0, r0)] emptyMoi = [(0, r0)] := by
  intro emptyMoi r0
  exact (C7_moi_filter_conjunctive emptyMoi [(0, r0)]).2.1 rfl rfl rfl rfl rfl

/-! ## Row-level characterization of `apply_rule` -/

theorem moiMatches_annotate (moi : Moi) (rule : Rule) (cv : Option ℚ) (r : Record) :
    moiMatches moi (_annotate_row r rule cv) = moiMatches moi r := by
  obtain ⟨h1, h2, h3, h4, _⟩ := annotate_preserves_filter_fields r rule cv
  simp only [moiMatches, h1, h2, h3, h4]

theorem mem_moi_indices (df : List Record) (moi : Moi) (i : Nat) (r : Record)
    (h : df.get? i = some r) :
    i ∈ (_moi_filter df.enum moi).map Prod.fst ↔ moiMatches moi r = true := by
  rw [moi_filter_eq_filter]
  constructor
  · intro hi
    obtain ⟨⟨j, s⟩, hmem, hj⟩ := List.mem_map.mp hi
    obtain ⟨henum, hmatch⟩ := List.mem_filter.mp hmem
    cases hj
    have : df[j]? = some s := List.mk_mem_enum_iff_getElem?.mp henum
    rw [List.get?_eq_getElem?, this] at h
    cases h
    exact hmatch
  · intro hm
    refine List.mem_map.mpr ⟨(i, r), List.mem_filter.mpr ⟨?_, hm⟩, rfl⟩
    exact List.mk_mem_enum_iff_getElem?.mpr (by rw [← List.get?_eq_getElem?]; exact h)

theorem apply_rule_get? (df : List Record) (rule : Rule) (i : Nat) :
    (apply_rule df rule).get? i = (df.get? i).map
      (fun r => if moiMatches rule.moi r then _annotate_row r rule none else r) := by
  unfold apply_rule
  by_cases he : (_moi_filter df.enum rule.moi).isEmpty = true
  · rw [if_pos he]
    have hnil : _moi_filter df.enum rule.moi = [] := List.isEmpty_iff.mp he
    cases hr : df.get? i with
    | none => simp
    | some r =>
        have hnm : moiMatches rule.moi r = false := by
          by_contra hc
          have hm : moiMatches rule.moi r = true := by
            cases hmc : moiMatches rule.moi r
            · exact absurd hmc hc
            · rfl
          have := (mem_moi_indices df rule.moi i r hr).mpr hm
          rw [hnil] at this
          simp at this
        simp [hr, hnm]
  · rw [if_neg he]
    rw [mapWithIndex_get?]
    cases hr : df.get? i with
    | none => simp
    | some r =>
        simp only [Option.map_some', Nat.zero_add, Option.some_inj]
        by_cases hm : moiMatches rule.moi r = true
        · rw [if_pos ((mem_moi_indices df rule.moi i r hr).mpr hm), if_pos hm]
        · rw [if_neg (fun hc => hm ((mem_moi_indices df rule.moi i r hr).mp hc)),
            if_neg hm]

theorem annotate_rule_name_append (r : Record) (rule : Rule) (cv : Option ℚ) :
    ∃ s, (_annotate_row r rule cv).rule_name = r.rule_name ++ s := by
  rw [annotate_rule_name]
  by_cases h : r.rule_name ≠ ""
  · exact ⟨"|" ++ rule.name, by rw [if_pos h, String.append_assoc]⟩
  · have h0 : r.rule_name = "" := not_not.mp h
    exact ⟨rule.name, by rw [if_neg h, h0, String.empty_append]⟩

theorem annotate_twice_label (r : Record) (rule : Rule) (cv cv' : Option ℚ) :
    (_annotate_row (_annotate_row r rule cv) rule cv').label =
      (_annotate_row r rule cv).label := by
  have h1 := annotate_main_fields r rule cv
  have h2 := annotate_main_fields (_annotate_row r rule cv) rule cv'
  by_cases hge : SEVERITY_ORDER (strLower rule.metadata.severity) ≥
      SEVERITY_ORDER r.rule_severity
  · rw [if_pos hge] at h1
    have hsev : (_annotate_row r rule cv).rule_severity =
        strLower rule.metadata.severity := by
      have := congrArg (·.2.2.2.1) h1; simpa using this
    have hge2 : SEVERITY_ORDER (strLower rule.metadata.severity) ≥
        SEVERITY_ORDER (_annotate_row r rule cv).rule_severity := by rw [hsev]
    rw [if_pos hge2] at h2
    have hl1 : (_annotate_row r rule cv).label = rule.label.getD "anomalous" := by
      have := congrArg (·.1) h1; simpa using this
    have hl2 := congrArg (·.1) h2
    simp only at hl2
    rw [hl2, hl1]
  · rw [if_neg hge] at h1
    have hsev : (_annotate_row r rule cv).rule_severity = r.rule_severity := by
      have := congrArg (·.2.2.2.1) h1; simpa using this
    have hge2 : ¬ SEVERITY_ORDER (strLower rule.metadata.severity) ≥
        SEVERITY_ORDER (_annotate_row r rule cv).rule_severity := by
      rw [hsev]; exact hge
    rw [if_neg hge2] at h2
    have hl2 := congrArg (·.1) h2
    simpa using hl2

/-! ## Shape of any single-rule application at one row -/

theorem mapWithIndex_length (f : Nat → Record → Record) (l : List Record) :
    ∀ n, (mapWithIndex f n l).length = l.length := by
  induction l with
  | nil => intro n; rfl
  | cons r rest ih => intro n; simp [mapWithIndex, ih]

theorem apply_rule_length (df : List Record) (rule : Rule) :
    (apply_rule df rule).length = df.length := by
  simp only [apply_rule]
  split
  · rfl
  · exact mapWithIndex_length _ _ _

theorem apply_irule_length (df : List Record) (rule : Rule) :
    (apply_irule df rule).length = df.length := by
  simp only [apply_irule]
  split
  · rfl
  · exact mapWithIndex_length _ _ _

theorem apply_crule_length (df : List Record) (rule : Rule) :
    (apply_crule df rule).length = df.length := by
  simp only [apply_crule]
  split
  · rfl
  · split
    · rfl
    · exact mapWithIndex_length _ _ _

theorem dispatch_length (df : List Record) (rule : Rule) :
    (dispatch df rule).length = df.length := by
  unfold dispatch
  split
  · exact apply_rule_length df rule
  · split
    · exact apply_irule_length df rule
    · split
      · exact apply_crule_length df rule
      · rfl

theorem get?_mapWithIndex_some (g : Nat → Record → Record) (df : List Record)
    (i : Nat) (r r' : Record) (h : df.get? i = some r)
    (h' : (mapWithIndex g 0 df).get? i = some r') : r' = g i r := by
  rw [mapWithIndex_get?, h] at h'
  simpa using h'.symm

theorem apply_irule_record_shape (df : List Record) (rule : Rule) (i : Nat)
    (r r' : Record) (h : df.get? i = some r)
    (h' : (apply_irule df rule).get? i = some r') :
    r' = r ∨ r' = _annotate_row r rule none := by
  simp only [apply_irule] at h'
  split at h'
  · left; rw [h] at h'; exact (Option.some_inj.mp h').symm
  · have := get?_mapWithIndex_some _ df i r r' h h'
    rw [this]
    split
    · right; rfl
    · left; rfl

theorem apply_crule_record_shape (df : List Record) (rule : Rule) (i : Nat)
    (r r' : Record) (h : df.get? i = some r)
    (h' : (apply_crule df rule).get? i = some r') :
    r' = r ∨ ∃ cv, r' = _annotate_row r rule cv := by
  simp only [apply_crule] at h'
  split at h'
  · left; rw [h] at h'; exact (Option.some_inj.mp h').symm
  · split at h'
    · left; rw [h] at h'; exact (Option.some_inj.mp h').symm
    · have := get?_mapWithIndex_some _ df i r r' h h'
      rw [this]
      split
      · split
        · left; rfl
        · split
          · right; exact ⟨_, rfl⟩
          · left; rfl
      · left; rfl

theorem dispatch_record_shape (df : List Record) (rule : Rule) (i : Nat)
    (r r' : Record) (h : df.get? i = some r)
    (h' : (dispatch df rule).get? i = some r') :
    r' = r ∨ ∃ cv, r' = _annotate_row r rule cv := by
  unfold dispatch at h'
  split at h'
  · rw [apply_rule_get?, h] at h'
    simp only [Option.map_some', Option.some_inj] at h'
    rw [← h']
    split
    · right; exact ⟨none, rfl⟩
    · left; rfl
  · split at h'
    · rcases apply_irule_record_shape df rule i r r' h h' with hl | hr
      · left; exact hl
      · right; exact ⟨none, hr⟩
    · split at h'
      · exact apply_crule_record_shape df rule i r r' h h'
      · left; rw [h] at h'; exact (Option.some_inj.mp h').symm

theorem dispatch_rule_name_append (df : List Record) (rule : Rule) (i : Nat)
    (r r' : Record) (h : df.get? i = some r)
    (h' : (dispatch df rule).get? i = some r') :
    ∃ s, r'.rule_name = r.rule_name ++ s := by
  rcases dispatch_record_shape df rule i r r' h h' with hEq | ⟨cv, hEq⟩
  · exact ⟨"", by rw [hEq, String.append_empty]⟩
  · rw [hEq]; exact annotate_rule_name_append r rule cv

theorem apply_rules_rule_name_append (rules : List Rule) :
    ∀ (df : List Record) (i : Nat) (r r' : Record), df.get? i = some r →
      (apply_rules df rules).get? i = some r' →
      ∃ s, r'.rule_name = r.rule_name ++ s := by
  induction rules with
  | nil =>
      intro df i r r' h h'
      have hnil : apply_rules df [] = df := rfl
      rw [hnil, h] at h'
      exact ⟨"", by rw [(Option.some_inj.mp h').symm, String.append_empty]⟩
  | cons rule rest ih =>
      intro df i r r' h h'
      have hstep : apply_rules df (rule :: rest) =
          apply_rules (dispatch df rule) rest := rfl
      rw [hstep] at h'
      cases hmid : (dispatch df rule).get? i with
      | none =>
          exfalso
          have hle := List.get?_eq_none.mp hmid
          rw [dispatch_length] at hle
          have := List.get?_eq_none.mpr hle
          rw [this] at h
          exact Option.noConfusion h
      | some mid =>
          obtain ⟨s1, hs1⟩ := dispatch_rule_name_append df rule i r mid h hmid
          obtain ⟨s2, hs2⟩ := ih (dispatch df rule) i mid r' hmid h'
          exact ⟨s1 ++ s2, by rw [hs2, hs1, String.append_assoc]⟩

/-- Claim C8: Applying the same scope rule twice to the same record store yields
the same label on each record as applying it once; a matching record whose
`rule_name` starts empty ends with exactly two pipe-joined occurrences of the
(nonempty) rule name; and across any sequence of rule applications,
`rule_name` only ever grows by appending — it never shrinks and is never
reordered. -/
theorem C8_scope_rule_idempotent (rule : Rule) (df : List Record) :
    (∀ i, ((apply_rule (apply_rule df rule) rule).get? i).map Record.label =
          ((apply_rule df rule).get? i).map Record.label) ∧
    (∀ i r, df.get? i = some r → r.rule_name = "" → rule.name ≠ "" →
      moiMatches rule.moi r = true →
      ((apply_rule (apply_rule df rule) rule).get? i).map Record.rule_name =
        some (rule.name ++ "|" ++ rule.name)) ∧
    (∀ (rules : List Rule) (i : Nat) (r r' : Record), df.get? i = some r →
      (apply_rules df rules).get? i = some r' →
      ∃ s, r'.rule_name = r.rule_name ++ s) := by
  refine ⟨?_, ?_,
    fun rules i r r' h h' => apply_rules_rule_name_append rules df i r r' h h'⟩
  · intro i
    rw [apply_rule_get? (apply_rule df rule) rule i, apply_rule_get? df rule i]
    cases hr : df.get? i with
    | none => simp
    | some r =>
        simp only [Option.map_some', Option.some_inj]
        by_cases hm : moiMatches rule.moi r = true
        · rw [if_pos hm, if_pos (by rw [moiMatches_annotate]; exact hm)]
          exact annotate_twice_label r rule none none
        · rw [if_neg hm, if_neg hm]
  · intro i r h h0 hname hm
    rw [apply_rule_get? (apply_rule df rule) rule i, apply_rule_get? df rule i, h]
    simp only [Option.map_some', Option.some_inj]
    rw [if_pos hm, if_pos (by rw [moiMatches_annotate]; exact hm)]
    have hfirst : (_annotate_row r rule none).rule_name = rule.name := by
      rw [annotate_rule_name, if_neg (not_not_intro h0)]
    rw [annotate_rule_name, hfirst, if_pos hname]

/-- Witness for C8: a scope rule named "scope1" with an empty predicate,
applied twice to a fresh one-row store. -/
theorem C8_scope_rule_idempotent_witness :
    let sRule : Rule := {
      name := "scope1"
      rtype := some "rule"
      label := some "anom"
      semantics := "usage"
      metadata := { severity := "low", layer := "app", description := "d" }
      moi := { pgn := none, sa := none, da := none,
               priority_min := none, priority_max := none }
      context := { pgn := none, sa := none, offset := none, length := none,
                   scale := none, comparator := none, threshold := none }
      interval_ms := none
      threshold := none }
    let r0 : Record := {
      timestamp := 0, iface := "can0", can_id := 0, dlc := 0, data := ""
      priority := 0, pdu_format := 0, pdu_specific := 0, pdu_type := "PDU1"
      pgn := 0, pgn_label := none, destination := none, source := 0
      label := "normal", rule_name := "", rule_type := "", semantics := ""
      rule_severity := "", rule_layer := "", rule_description := ""
      context_pgn := "", context_value := none }
    ((apply_rule (apply_rule [r0] sRule) sRule).get? 0).map Record.rule_name =
      some ("scope1" ++ "|" ++ "scope1") := by
  intro sRule r0
  exact (C8_scope_rule_idempotent sRule [r0]).2.1 0 r0 rfl rfl
    (by decide) (by decide)

/-! ## Skipped rules -/

theorem dispatch_unknown (rule : Rule) (df : List Record)
    (h1 : rule.rtype ≠ some "rule") (h2 : rule.rtype ≠ some "irule")
    (h3 : rule.rtype ≠ some "crule") : dispatch df rule = df := by
  unfold dispatch
  rw [if_neg (by simpa using h1), if_neg (by simpa using h2),
    if_neg (by simpa using h3)]

theorem apply_crule_missing_pgn (rule : Rule) (df : List Record)
    (h : rule.moi.pgn = none ∨ rule.context.pgn = none) :
    apply_crule df rule = df := by
  simp only [apply_crule]
  rw [if_pos]
  rcases h with h | h <;> simp [h]

theorem dispatch_crule_missing_pgn (rule : Rule) (df : List Record)
    (hrt : rule.rtype = some "crule")
    (h : rule.moi.pgn = none ∨ rule.context.pgn = none) :
    dispatch df rule = df := by
  unfold dispatch
  rw [if_neg (by simp [hrt]), if_neg (by simp [hrt]), if_pos (by simp [hrt])]
  exact apply_crule_missing_pgn rule df h

theorem apply_rules_append_cons (pre post : List Rule) (bad : Rule)
    (hid : ∀ df : List Record, dispatch df bad = df) :
    ∀ df : List Record,
      apply_rules df (pre ++ bad :: post) = apply_rules df (pre ++ post) := by
  induction pre with
  | nil =>
      intro df
      show apply_rules (dispatch df bad) post = apply_rules df post
      rw [hid df]
  | cons rule rest ih =>
      intro df
      show apply_rules (dispatch df rule) (rest ++ bad :: post) =
        apply_rules (dispatch df rule) (rest ++ post)
      exact ih (dispatch df rule)

/-- Claim C9: A rule whose type is not one of the three recognized types, and a
context rule missing a required `pgn` in either its message-of-interest or
its context descriptor, is skipped: it modifies no record, and every other
rule in the list is still applied. -/
theorem C9_misconfigured_rules_skipped :
    (∀ (rule : Rule) (df : List Record),
      rule.rtype ≠ some "rule" → rule.rtype ≠ some "irule" →
      rule.rtype ≠ some "crule" → dispatch df rule = df) ∧
    (∀ (rule : Rule) (df : List Record), rule.rtype = some "crule" →
      rule.moi.pgn = none ∨ rule.context.pgn = none → dispatch df rule = df) ∧
    (∀ (pre post : List Rule) (bad : Rule) (df : List Record),
      bad.rtype ≠ some "rule" → bad.rtype ≠ some "irule" →
      bad.rtype ≠ some "crule" →
      apply_rules df (pre ++ bad :: post) = apply_rules df (pre ++ post)) ∧
    (∀ (pre post : List Rule) (bad : Rule) (df : List Record),
      bad.rtype = some "crule" →
      bad.moi.pgn = none ∨ bad.context.pgn = none →
      apply_rules df (pre ++ bad :: post) = apply_rules df (pre ++ post)) := by
  refine ⟨dispatch_unknown, dispatch_crule_missing_pgn, ?_, ?_⟩
  · intro pre post bad df h1 h2 h3
    exact apply_rules_append_cons pre post bad
      (fun df0 => dispatch_unknown bad df0 h1 h2 h3) df
  · intro pre post bad df hrt h
    exact apply_rules_append_cons pre post bad
      (fun df0 => dispatch_crule_missing_pgn bad df0 hrt h) df

/-- Witness for C9: a rule of unrecognized type `"xrule"` leaves a one-row
store untouched. -/
theorem C9_misconfigured_rules_skipped_witness :
    let xRule : Rule := {
      name := "x"
      rtype := some "xrule"
      label := some "bad"
      semantics := ""
      metadata := { severity := "high", layer := "", description := "" }
      moi := { pgn := none, sa := none, da := none,
               priority_min := none, priority_max := none }
      context := { pgn := none, sa := none, offset := none, length := none,
                   scale := none, comparator := none, threshold := none }
      interval_ms := none
      threshold := none }
    let r0 : Record := {
      timestamp := 0, iface := "can0", can_id := 0, dlc := 0, data := ""
      priority := 0, pdu_format := 0, pdu_specific := 0, pdu_type := "PDU1"
      pgn := 0, pgn_label := none, destination := none, source := 0
      label := "normal", rule_name := "", rule_type := "", semantics := ""
      rule_severity := "", rule_layer := "", rule_description := ""
      context_pgn := "", context_value := none }
    dispatch [r0] xRule = [r0] := by
  intro xRule r0
  exact C9_misconfigured_rules_skipped.1 xRule [r0]
    (by decide) (by decide) (by decide)

/-- Claim C10: A context rule whose comparator string is not one of the five
recognized comparators annotates no record: the comparison silently evaluates
to not-fired for every message-of-interest record, and the store is returned
unchanged. -/
theorem C10_unknown_comparator_no_fire (rule : Rule) (df : List Record)
    (h : pyTrim (rule.context.comparator.getD ">") ∉
      ([">", "<", "==", ">=", "<="] : List String)) :
    apply_crule df rule = df := by
  have hne := h
  simp only [List.mem_cons, List.mem_singleton, not_or] at hne
  obtain ⟨h1, h2, h3, h4, h5⟩ := hne
  simp only [apply_crule]
  split
  · rfl
  · split
    · rfl
    · apply mapWithIndex_id
      intro i r
      split
      · cases hl : latestCtx (cruleCtxValues df rule) r.timestamp with
        | none => rfl
        | some v =>
            have hf : comparatorFires (pyTrim (rule.context.comparator.getD ">"))
                v (rule.context.threshold.getD 0) = false := by
              simp [comparatorFires, h1, h2, h3, h4, h5]
            simp [hf]
      · rfl

/-- Witness for C10: comparator `"!="` on a one-row store with a valid
context configuration. -/
theorem C10_unknown_comparator_no_fire_witness :
    let neRule : Rule := {
      name := "c"
      rtype := some "crule"
      label := some "ctx"
      semantics := "state"
      metadata := { severity := "high", layer := "", description := "" }
      moi := { pgn := some 61443, sa := none, da := none,
               priority_min := none, priority_max := none }
      context := { pgn := some 61444, sa := none, offset := some 0,
                   length := some 1, scale := some 1,
                   comparator := some "!=", threshold := some 5 }
      interval_ms := none
      threshold := none }
    let r0 : Record := {
      timestamp := 0, iface := "can0", can_id := 0, dlc := 1, data := "0A"
      priority := 0, pdu_format := 240, pdu_specific := 4, pdu_type := "PDU2"
      pgn := 61444, pgn_label := none, destination := none, source := 0
      label := "normal", rule_name := "", rule_type := "", semantics := ""
      rule_severity := "", rule_layer := "", rule_description := ""
      context_pgn := "", context_value := none }
    apply_crule [r0] neRule = [r0] := by
  intro neRule r0
  exact C10_unknown_comparator_no_fire neRule [r0] (by decide)

/-! ## Burst-rule lemmas -/

theorem burstLoop_no_mark (interval : ℚ) (threshold : Nat) :
    ∀ (l : List (Nat × ℚ)) (window : List Nat) (prevT : ℚ) (marked : List Nat),
      window.length + l.length < threshold →
      burstLoop interval threshold l window prevT marked = marked := by
  intro l
  induction l with
  | nil => intro window prevT marked h; rfl
  | cons p rest ih =>
      obtain ⟨i, t⟩ := p
      intro window prevT marked h
      simp only [List.length_cons] at h
      simp only [burstLoop]
      split
      · rw [if_neg (by simp only [List.length_append, List.length_cons,
          List.length_nil]; omega)]
        exact ih (window ++ [i]) t marked
          (by simp only [List.length_append, List.length_cons,
            List.length_nil]; omega)
      · exact ih [i] t marked
          (by simp only [List.length_cons, List.length_nil]; omega)

theorem burstScan_short (interval : ℚ) (threshold : Nat) (l : List (Nat × ℚ))
    (h : l.length < threshold) : burstScan interval threshold l = [] := by
  cases l with
  | nil => rfl
  | cons p rest =>
      obtain ⟨i, t⟩ := p
      simp only [List.length_cons] at h
      exact burstLoop_no_mark interval threshold rest [i] t []
        (by simp only [List.length_cons, List.length_nil]; omega)

/-- Concrete single-identifier record for the burst example. -/
def exBurstRec (t : ℚ) : Record :=
  { timestamp := t, iface := "can0", can_id := 217056256, dlc := 8
    data := "0102030405060708", priority := 3, pdu_format := 240
    pdu_specific := 4, pdu_type := "PDU2", pgn := 61444, pgn_label := none
    destination := none, source := 0, label := "normal", rule_name := ""
    rule_type := "", semantics := "", rule_severity := "", rule_layer := ""
    rule_description := "", context_pgn := "", context_value := none }

/-- Five same-identifier records at deltas [50ms, 50ms, 200ms, 50ms]. -/
def exBurstStore : List Record :=
  [exBurstRec 0, exBurstRec (1/20), exBurstRec (1/10),
   exBurstRec (3/10), exBurstRec (7/20)]

/-- The burst rule: `interval_ms = 100`, `threshold = 3`, no MOI narrowing. -/
def exBurstRule : Rule :=
  { name := "burst1", rtype := some "irule", label := some "burst"
    semantics := "temporal"
    metadata := { severity := "medium", layer := "net", description := "b" }
    moi := { pgn := none, sa := none, da := none,
             priority_min := none, priority_max := none }
    context := { pgn := none, sa := none, offset := none, length := none,
                 scale := none, comparator := none, threshold := none }
    interval_ms := some 100, threshold := some 3 }

/-- Claim C3: Within a same-identifier group sorted by ascending timestamp, the
window extends exactly when the gap to the immediately preceding record is
`≤ interval` (inclusive), otherwise it resets; every record of a window that
reaches `threshold` is annotated, and a group with fewer than `threshold`
eligible records annotates no record. In particular, with interval 100ms and
threshold 3, five same-identifier records at deltas [50ms, 50ms, 200ms, 50ms]
yield records 1-3 annotated and records 4-5 not annotated. -/
theorem C3_burst_rule_window (interval : ℚ) (threshold : Nat)
    (l : List (Nat × ℚ)) (hshort : l.length < threshold) :
    burstScan interval threshold l = [] ∧
    (∀ t gap : ℚ, burstScan gap 3 [(0, t), (1, t + gap), (2, t + 2 * gap)] =
      [0, 1, 2]) ∧
    (apply_irule exBurstStore exBurstRule).map Record.label =
      ["burst", "burst", "burst", "normal", "normal"] := by
  refine ⟨burstScan_short interval threshold l hshort, ?_, ?_⟩
  · intro t gap
    have e1 : t + gap - t ≤ gap := le_of_eq (by ring)
    have e2 : t + 2 * gap - (t + gap) ≤ gap := le_of_eq (by ring)
    simp only [burstScan, burstLoop]
    rw [if_pos e1, if_pos e2]
    decide
  · norm_num [apply_irule, exBurstStore, exBurstRule, exBurstRec, _moi_filter,
      Moi.isEmpty, moiMatches, sortByTimestamp, insertByTs, burstScan,
      burstLoop, List.union, mapWithIndex, _annotate_row, SEVERITY_ORDER,
      strLower, charLower, pyTrim, pyStrip, List.dedup, List.enum,
      List.enumFrom, List.pwFilter, List.insert]
    decide

/-- Witness for C3 at a concrete two-element group with threshold 3. -/
theorem C3_burst_rule_window_witness :
    burstScan (1/10) 3 [(0, 0), (1, 1/20)] = [] := by
  exact (C3_burst_rule_window (1/10) 3 [(0, 0), (1, 1/20)] (by decide)).1

/-! ## Context-lookup lemmas -/

theorem foldl_latest_mem (xs : List (ℚ × ℚ)) :
    ∀ x : ℚ × ℚ,
      xs.foldl (fun best p => if best.1 < p.1 then p else best) x ∈ x :: xs := by
  induction xs with
  | nil => intro x; simp [List.foldl]
  | cons y ys ih =>
      intro x
      simp only [List.foldl]
      rcases List.mem_cons.mp (ih (if x.1 < y.1 then y else x)) with h | h
      · rw [h]
        split
        · exact List.mem_cons_of_mem _ (List.mem_cons_self _ _)
        · exact List.mem_cons_self _ _
      · exact List.mem_cons_of_mem _ (List.mem_cons_of_mem _ h)

theorem foldl_latest_ge (xs : List (ℚ × ℚ)) :
    ∀ (x q : ℚ × ℚ), q ∈ x :: xs →
      q.1 ≤ (xs.foldl (fun best p => if best.1 < p.1 then p else best) x).1 := by
  induction xs with
  | nil =>
      intro x q hq
      rcases List.mem_cons.mp hq with h | h
      · subst h; simp [List.foldl]
      · simp at h
  | cons y ys ih =>
      intro x q hq
      simp only [List.foldl]
      rcases List.mem_cons.mp hq with h | h
      · subst h
        have hfirst : q.1 ≤ (if q.1 < y.1 then y else q).1 := by
          split
          · exact le_of_lt (by assumption)
          · exact le_refl _
        exact le_trans hfirst
          (ih _ _ (List.mem_cons_self _ _))
      · rcases List.mem_cons.mp h with h2 | h2
        · subst h2
          have hfirst : q.1 ≤ (if x.1 < q.1 then q else x).1 := by
            split
            · exact le_refl _
            · exact le_of_not_lt (by assumption)
          exact le_trans hfirst (ih _ _ (List.mem_cons_self _ _))
        · exact ih _ _ (List.mem_cons_of_mem _ h2)

theorem latestCtx_none_iff (m : List (ℚ × ℚ)) (ts : ℚ) :
    latestCtx m ts = none ↔ ∀ p ∈ m, ¬ p.1 ≤ ts := by
  unfold latestCtx
  cases hf : m.filter (fun p => decide (p.1 ≤ ts)) with
  | nil =>
      simp only [true_iff]
      intro p hp hle
      have : p ∈ m.filter (fun p => decide (p.1 ≤ ts)) :=
        List.mem_filter.mpr ⟨hp, by simpa using hle⟩
      rw [hf] at this
      simp at this
  | cons x xs =>
      constructor
      · intro hcontra
        exact absurd hcontra (by simp)
      · intro hall
        exfalso
        have hx : x ∈ m.filter (fun p => decide (p.1 ≤ ts)) := by
          rw [hf]; exact List.mem_cons_self _ _
        obtain ⟨hxm, hxle⟩ := List.mem_filter.mp hx
        exact hall x hxm (by simpa using hxle)

theorem latestCtx_some_spec (m : List (ℚ × ℚ)) (ts : ℚ) (v : ℚ)
    (h : latestCtx m ts = some v) :
    ∃ p ∈ m, p.1 ≤ ts ∧ p.2 = v ∧ ∀ q ∈ m, q.1 ≤ ts → q.1 ≤ p.1 := by
  unfold latestCtx at h
  cases hf : m.filter (fun p => decide (p.1 ≤ ts)) with
  | nil => rw [hf] at h; exact absurd h (by simp)
  | cons x xs =>
      rw [hf] at h
      simp only [Option.some_inj] at h
      set best := xs.foldl (fun best p => if best.1 < p.1 then p else best) x with hbest
      have hmemf : best ∈ x :: xs := foldl_latest_mem xs x
      rw [← hf] at hmemf
      obtain ⟨hbm, hble⟩ := List.mem_filter.mp hmemf
      refine ⟨best, hbm, by simpa using hble, h, ?_⟩
      intro q hq hqle
      have hqf : q ∈ m.filter (fun p => decide (p.1 ≤ ts)) :=
        List.mem_filter.mpr ⟨hq, by simpa using hqle⟩
      rw [hf] at hqf
      exact foldl_latest_ge xs x q hqf

theorem apply_crule_skip_no_context (df : List Record) (rule : Rule) (i : Nat)
    (r : Record) (h : df.get? i = some r)
    (hl : latestCtx (cruleCtxValues df rule) r.timestamp = none) :
    (apply_crule df rule).get? i = some r := by
  simp only [apply_crule]
  split
  · exact h
  · split
    · exact h
    · rw [mapWithIndex_get?, h]
      simp only [Option.map_some', Nat.zero_add, Option.some_inj]
      split
      · rw [hl]
      · rfl

/-- Context records at timestamps 1 (value 10 = 0x0A) and 3 (value 40 = 0x28). -/
def exCtxRec (t : ℚ) (dat : String) : Record :=
  { timestamp := t, iface := "can0", can_id := 217056256, dlc := 1
    data := dat, priority := 3, pdu_format := 240, pdu_specific := 4
    pdu_type := "PDU2", pgn := 61444, pgn_label := none, destination := none
    source := 0, label := "normal", rule_name := "", rule_type := ""
    semantics := "", rule_severity := "", rule_layer := ""
    rule_description := "", context_pgn := "", context_value := none }

/-- Message-of-interest record (different group number). -/
def exMoiRec (t : ℚ) : Record :=
  { timestamp := t, iface := "can0", can_id := 217055999, dlc := 1
    data := "FF", priority := 3, pdu_format := 240, pdu_specific := 3
    pdu_type := "PDU2", pgn := 61443, pgn_label := none, destination := none
    source := 0, label := "normal", rule_name := "", rule_type := ""
    semantics := "", rule_severity := "", rule_layer := ""
    rule_description := "", context_pgn := "", context_value := none }

/-- Store: context samples at 1.0 (10) and 3.0 (40); messages of interest at
2.5, 1.0 and 0.5. -/
def exCtxStore : List Record :=
  [exCtxRec 1 "0A", exCtxRec 3 "28", exMoiRec (5/2), exMoiRec 1, exMoiRec (1/2)]

/-- Context rule: fire when the latest context value at or before the message
is `< 20`. -/
def exCtxRule : Rule :=
  { name := "ctx1", rtype := some "crule", label := some "ctx"
    semantics := "state"
    metadata := { severity := "high", layer := "app", description := "c" }
    moi := { pgn := some 61443, sa := none, da := none,
             priority_min := none, priority_max := none }
    context := { pgn := some 61444, sa := none, offset := some 0,
                 length := some 1, scale := some 1,
                 comparator := some "<", threshold := some 20 }
    interval_ms := none, threshold := none }

/-- Claim C4: For every context-rule evaluation and message-of-interest record
at timestamp T, the context value compared against the threshold is the one
whose timestamp is the latest timestamp ≤ T (inclusive at equality); if no
context sample exists at or before T, the record is skipped unchanged. In
particular, with context samples {1.0 ↦ 10, 3.0 ↦ 40} and a message of
interest at 2.5, the rule compares 10 (so a `< 20` rule fires on it and
records context value 10), fires at timestamp 1.0 as well (inclusive bound),
and skips the message at 0.5. -/
theorem C4_context_lookup_latest_at_or_before (df : List Record) (rule : Rule)
    (i : Nat) (r : Record) (m : List (ℚ × ℚ)) (ts v : ℚ)
    (h : df.get? i = some r)
    (hl : latestCtx (cruleCtxValues df rule) r.timestamp = none)
    (hv : latestCtx m ts = some v) :
    (apply_crule df rule).get? i = some r ∧
    (∃ p ∈ m, p.1 ≤ ts ∧ p.2 = v ∧ ∀ q ∈ m, q.1 ≤ ts → q.1 ≤ p.1) ∧
    (apply_crule exCtxStore exCtxRule).map
      (fun rec => (rec.label, rec.context_value)) =
      [("normal", none), ("normal", none), ("ctx", some 10),
       ("ctx", some 10), ("normal", none)] := by
  refine ⟨apply_crule_skip_no_context df rule i r h hl,
    latestCtx_some_spec m ts v hv, ?_⟩
  have hA : bytes_fromhex "0A" = some [10] := rfl
  have hB : bytes_fromhex "28" = some [40] := rfl
  have hF : bytes_fromhex "FF" = some [255] := rfl
  have ht1 : pyTrim "<" = "<" := rfl
  have ht2 : pyTrim "state" = "state" := rfl
  have hs1 : strLower "high" = "high" := rfl
  have hv2 : SEVERITY_ORDER "high" = 2 := rfl
  have hv0 : SEVERITY_ORDER "" = -1 := rfl
  have hc1 : comparatorFires "<" 10 20 = true := by decide
  have hc2 : comparatorFires "<" 40 20 = false := by decide
  norm_num [apply_crule, cruleCtxValues, exCtxStore, exCtxRule, exCtxRec,
    exMoiRec, _moi_filter, Moi.isEmpty, CtxSpec.isEmpty, moiMatches,
    ctxValuesOf, insertTs, hA, hB, hF, ht1, ht2, hs1, hv2, hv0, hc1, hc2,
    int_from_bytes_rev, latestCtx, mapWithIndex, _annotate_row,
    List.isEmpty, List.enum, List.enumFrom]

/-- Witness for C4: the message of interest at 0.5 precedes every context
sample and is returned unchanged, and the lookup at 2.5 returns the sample
at timestamp 1. -/
theorem C4_context_lookup_latest_at_or_before_witness :
    (apply_crule exCtxStore exCtxRule).get? 4 = some (exMoiRec (1/2)) ∧
    (∃ p ∈ ([(1, 10), (3, 40)] : List (ℚ × ℚ)), p.1 ≤ 5/2 ∧ p.2 = 10 ∧
      ∀ q ∈ ([(1, 10), (3, 40)] : List (ℚ × ℚ)), q.1 ≤ 5/2 → q.1 ≤ p.1) := by
  have h := C4_context_lookup_latest_at_or_before exCtxStore exCtxRule 4
    (exMoiRec (1/2)) [(1, 10), (3, 40)] (5/2) 10
    (by rfl)
    (by
      have hA : bytes_fromhex "0A" = some [10] := rfl
      have hB : bytes_fromhex "28" = some [40] := rfl
      have hF : bytes_fromhex "FF" = some [255] := rfl
      norm_num [cruleCtxValues, exCtxStore, exCtxRule, exCtxRec, exMoiRec,
        ctxValuesOf, insertTs, hA, hB, hF, int_from_bytes_rev, latestCtx])
    (by norm_num [latestCtx])
  exact ⟨h.1, h.2.1⟩

/-! ## Context-extraction error handling -/

/-- Claim C5 counterexample: A context record whose 1-byte payload is too short
for `byte_offset = 0, byte_length = 4` still produces a context sample: the
slice silently truncates to the single byte and the sample value is 10, so
the extraction list is not empty as the claim requires. -/
theorem C5_counterexample_short_payload_sample :
    ctxValuesOf [exCtxRec 1 "0A"] 0 4 1 = [(1, 10)] ∧
    ctxValuesOf [exCtxRec 1 "0A"] 0 4 1 ≠ [] := by
  have hA : bytes_fromhex "0A" = some [10] := rfl
  constructor
  · norm_num [ctxValuesOf, insertTs, exCtxRec, hA, int_from_bytes_rev]
  · intro hc
    rw [show ctxValuesOf [exCtxRec 1 "0A"] 0 4 1 = [(1, 10)] by
      norm_num [ctxValuesOf, insertTs, exCtxRec, hA, int_from_bytes_rev]] at hc
    exact List.noConfusion hc

/-- Claim C5, amended: A context record whose payload hex fails to decode
(odd length or non-hex characters) is dropped — no sample is produced for it
and extraction continues for the remaining candidates. A payload that is
merely too short for `byte_offset`/`byte_length` is NOT dropped: the byte
slice silently truncates and a sample is still produced from the truncated
slice, while extraction continues for other candidates. -/
theorem C5_amended_bad_hex_dropped (pre post : List Record) (r : Record)
    (offset len : Nat) (scale : ℚ) (h : bytes_fromhex r.data = none) :
    ctxValuesOf (pre ++ r :: post) offset len scale =
      ctxValuesOf (pre ++ post) offset len scale ∧
    ctxValuesOf [exCtxRec 1 "0A", exCtxRec 3 "28282828"] 0 4 1 =
      [(1, 10), (3, 673720360)] := by
  constructor
  · unfold ctxValuesOf
    rw [List.foldl_append, List.foldl_append, List.foldl_cons]
    simp [h]
  · have hA : bytes_fromhex "0A" = some [10] := rfl
    have hB : bytes_fromhex "28282828" = some [40, 40, 40, 40] := rfl
    norm_num [ctxValuesOf, insertTs, exCtxRec, hA, hB, int_from_bytes_rev]

/-- Witness for C5 (amended): a record with non-hex payload `"ZZ"` is dropped
while the valid record after it still contributes. -/
theorem C5_amended_bad_hex_dropped_witness :
    ctxValuesOf [exCtxRec 1 "ZZ", exCtxRec 3 "28"] 0 1 1 =
      ctxValuesOf [exCtxRec 3 "28"] 0 1 1 := by
  exact (C5_amended_bad_hex_dropped [] [exCtxRec 3 "28"] (exCtxRec 1 "ZZ")
    0 1 1 rfl).1

/-! ## Payload rendering lemmas -/

theorem strJoin_foldl_length (l : List String) :
    ∀ acc : String, (l.foldl (fun a b => a ++ b) acc).length =
      acc.length + (l.map String.length).sum := by
  induction l with
  | nil => intro acc; simp
  | cons x xs ih =>
      intro acc
      simp only [List.foldl_cons, List.map_cons, List.sum_cons]
      rw [ih (acc ++ x), String.length_append]
      omega

theorem zfill_two_length (t : String) (h : t.length ≤ 2) :
    (zfill 2 t).length = 2 := by
  unfold zfill
  split
  · omega
  · rw [String.length_append]
    have hmk : (String.mk (List.replicate (2 - t.length) '0')).length =
        2 - t.length := by
      show (List.replicate (2 - t.length) '0').length = 2 - t.length
      exact List.length_replicate _ _
    omega

theorem strUpper_length (s : String) : (strUpper s).length = s.length := by
  show (s.toList.map charUpper).length = s.length
  rw [List.length_map]
  rfl

theorem joined_tokens_length (tokens : List String)
    (h : ∀ t ∈ tokens, t.length ≤ 2) :
    (strUpper (strJoin (tokens.map (zfill 2)))).length = 2 * tokens.length := by
  have hsum : ∀ ts : List String, (∀ t ∈ ts, t.length ≤ 2) →
      ((ts.map (zfill 2)).map String.length).sum = 2 * ts.length := by
    intro ts
    induction ts with
    | nil => intro _; simp
    | cons x xs ih =>
        intro hts
        simp only [List.map_cons, List.sum_cons, List.length_cons]
        rw [zfill_two_length x (hts x (List.mem_cons_self _ _)),
          ih (fun t ht => hts t (List.mem_cons_of_mem _ ht))]
        ring
  rw [strUpper_length]
  unfold strJoin
  rw [strJoin_foldl_length]
  have h0 : ("" : String).length = 0 := rfl
  rw [h0, hsum tokens h, Nat.zero_add]

/-- Claim C6 counterexample: The raw line `"(1.0) can0 18FEF100 [8] 01 02"`
declares a length code of 8 but carries only two payload tokens; the code
does not fail — the slice silently truncates, and the decoded record has
`dlc = 8` with a payload string `"0102"` of length 4 ≠ 2 * 8. -/
theorem C6_counterexample_truncated_payload :
    (parse_line [] "(1.0) can0 18FEF100 [8] 01 02").map
      (fun r => (r.dlc, r.data, r.data.length)) = some (8, "0102", 4) := by
  rfl

/-- Claim C6, amended: For every raw line, decoding either fails (the line is
skipped) or produces a record whose payload string is the uppercased
concatenation of the first `min(dlc, available)` payload tokens zero-padded
to two characters: when every payload token has at most two characters, the
payload length is `2 * min(dlc, available tokens)` — in particular exactly
`2 * dlc` when at least `dlc` tokens are present. Insufficient payload
tokens do not raise; they truncate. A well-formed line with short lowercase
tokens decodes to a fixed-width uppercase payload. -/
theorem C6_payload_rendering (labels : List (Nat × String)) (raw : String)
    (rec : Record) (h : parse_line labels raw = some rec)
    (htok : ∀ t ∈ (splitWs raw).drop 4, t.length ≤ 2) :
    (rec.data.length = 2 * min rec.dlc ((splitWs raw).drop 4).length ∧
     (rec.dlc ≤ ((splitWs raw).drop 4).length →
       rec.data.length = 2 * rec.dlc)) ∧
    (parse_line [] "(0.004231) can0 0CF00401 [3] a 0b cd").map
      (fun r => (r.dlc, r.data)) = some (3, "0A0BCD") := by
  constructor
  · simp only [parse_line] at h
    split at h
    · exact Option.noConfusion h
    split at h
    · exact Option.noConfusion h
    split at h
    · exact Option.noConfusion h
    split at h
    · exact Option.noConfusion h
    split at h
    · exact Option.noConfusion h
    split at h
    · exact Option.noConfusion h
    split at h
    · exact Option.noConfusion h
    rename_i dlcv hdec
    have hrec := Option.some_inj.mp h
    have hdata : rec.data =
        strUpper (strJoin ((((splitWs raw).drop 4).take dlcv).map (zfill 2))) := by
      rw [← hrec]
    have hdlc : rec.dlc = dlcv := by rw [← hrec]
    have hlen : rec.data.length =
        2 * (((splitWs raw).drop 4).take dlcv).length := by
      rw [hdata]
      exact joined_tokens_length _
        (fun t ht => htok t (List.take_subset _ _ ht))
    rw [List.length_take] at hlen
    constructor
    · rw [hlen, hdlc]
    · intro hle
      rw [hlen, hdlc]
      rw [hdlc] at hle
      rw [Nat.min_eq_left hle]
  · rfl

/-- Witness for C6 (amended) at the truncated concrete line. -/
theorem C6_payload_rendering_witness :
    ((parse_line [] "(1.0) can0 18FEF100 [8] 01 02").map
        (fun r => r.data.length) = some 4) ∧
    ((parse_line [] "(0.004231) can0 0CF00401 [3] a 0b cd").map
        (fun r => (r.dlc, r.data)) = some (3, "0A0BCD")) := by
  cases hp : parse_line [] "(1.0) can0 18FEF100 [8] 01 02" with
  | none =>
      exfalso
      have hsome : (parse_line [] "(1.0) can0 18FEF100 [8] 01 02").isSome =
          true := rfl
      rw [hp] at hsome
      exact Bool.noConfusion hsome
  | some rec =>
      have h := C6_payload_rendering [] "(1.0) can0 18FEF100 [8] 01 02" rec hp
        (by decide)
      refine ⟨?_, h.2⟩
      have hmin := h.1.1
      have : ((splitWs "(1.0) can0 18FEF100 [8] 01 02").drop 4).length = 2 := by
        decide
      rw [this] at hmin
      have hdlc : rec.dlc = 8 := by
        have := congrArg (Option.map Record.dlc) hp
        simp only [Option.map_some'] at this
        have h8 : (parse_line [] "(1.0) can0 18FEF100 [8] 01 02").map
            Record.dlc = some 8 := rfl
        rw [h8] at this
        exact (Option.some_inj.mp this.symm)
      rw [hdlc] at hmin
      simp only [Option.map_some', Option.some_inj]
      simpa using hmin

end J1939
